import Mathlib

/-!
Verification of `obsidian-get-tags` (src/src/main.rs), a tool that scans a
directory of Markdown notes and prints the deduplicated set of tags found in
YAML front matter (and, optionally, inline `#tags` found by an external `rg`
subprocess).

The Rust source is shallowly embedded below:

* a file's contents are modelled as the list of its lines (as produced by
  `BufReader::lines`, i.e. without terminators);
* YAML values (the `yaml_rust::Yaml` type) are modelled by the inductive
  `Yaml`; the external YAML text decoder (`frontmatter::parse`) is not
  re-implemented — functions that consume its output take an `Option Yaml`
  (`None` = no document present), exactly the value `load_tags` matches on;
* Rust's `str::trim` is modelled by `strTrim` (dropping whitespace characters
  from both ends); `str::trim_start_matches('#')` by `remove_hash`;
* the `rayon` parallel aggregation `collect_tags` is modelled as the set
  (`Finset String`) of all tags of the successfully parsed paths; the per-path
  parse (`load_tags`) is a parameter, since on the Rust side it performs I/O;
* iterating a `HashSet` and printing one line per element is modelled by
  `print_output`, which returns the multiset of printed lines (iteration
  order is unspecified, multiplicities are observable).
-/

/-- Whitespace test used by trimming (models Rust `char::is_whitespace` on the
ASCII whitespace actually relevant here). -/
def isWs (c : Char) : Bool := c.isWhitespace

/-- Trim whitespace from both ends of a character list. -/
def trimChars (l : List Char) : List Char :=
  ((l.dropWhile isWs).reverse.dropWhile isWs).reverse

/-- Model of Rust `str::trim`. -/
def strTrim (s : String) : String := ⟨trimChars s.data⟩

/-- Model of `remove_hash` (main.rs:187-189): `s.trim_start_matches('#')`,
i.e. drop every leading `'#'` character. -/
def remove_hash (s : String) : String := ⟨s.data.dropWhile (· == '#')⟩

/-- Model of `yaml_rust::Yaml` (the cases the program can observe). -/
inductive Yaml where
  | string (s : String)
  | integer (n : Int)
  | boolean (b : Bool)
  | array (xs : List Yaml)
  | hash (kvs : List (Yaml × Yaml))
  | null
  | badValue

/-- Hash lookup with a `String` key: `yaml_rust` wraps the key as
`Yaml::String(key)` and compares; a non-string key never matches. -/
def Yaml.lookupKey : List (Yaml × Yaml) → String → Option Yaml
  | [], _ => none
  | (Yaml.string k, v) :: rest, key =>
      if k = key then some v else Yaml.lookupKey rest key
  | _ :: rest, key => Yaml.lookupKey rest key

/-- Model of `yaml["key"]` (`Index<&str>` for `Yaml`): look the key up in a
hash, yielding `BadValue` when the value is not a hash or the key is absent. -/
def Yaml.index (y : Yaml) (key : String) : Yaml :=
  match y with
  | .hash kvs => (Yaml.lookupKey kvs key).getD .badValue
  | _ => .badValue

/-- Model of `Yaml::as_vec`: `Some` exactly on arrays. -/
def Yaml.as_vec : Yaml → Option (List Yaml)
  | .array xs => some xs
  | _ => none

/-- Model of `Yaml::as_str`: `Some` exactly on strings. -/
def Yaml.as_str : Yaml → Option String
  | .string s => some s
  | _ => none

/-- Model of the `YamlError` enum (main.rs:20-28). -/
inductive YamlError where
  | invalidTagsType
  | parseError (msg : String)
  | loadError (msg : String)
deriving DecidableEq

/-- Model of the `make_tag` closure in `load_tags` (main.rs:71-78): trim the
string, keep it only if the trimmed form is non-empty. -/
def make_tag (s : String) : Option String :=
  let t := strTrim s
  if t = "" then none else some t

/-- Model of the `match items` body of `load_tags` (main.rs:79-88), taking the
result of `frontmatter::parse` (`None` = no document). -/
def load_tags_fromYaml (items : Option Yaml) : Except YamlError (List String) :=
  match items with
  | none => Except.ok []
  | some yaml =>
      match (yaml.index "tags").as_vec with
      | some tags => Except.ok (tags.filterMap (fun tag => tag.as_str.bind make_tag))
      | none => Except.error YamlError.invalidTagsType

/-- Loop of `read_first_section` (main.rs:30-64) over the remaining lines,
carrying the `in_section` flag and the buffered text. -/
def read_first_section_go : Bool → String → List String → String
  | inSection, cur, [] => if inSection then cur else ""
  | inSection, cur, line :: rest =>
      if strTrim line = "---" then
        if inSection then cur ++ "---\n"
        else read_first_section_go true (cur ++ "---\n") rest
      else if inSection then read_first_section_go inSection (cur ++ line ++ "\n") rest
      else read_first_section_go inSection cur rest

/-- Model of `read_first_section` (main.rs:30-64) on a file given as its list
of lines. I/O errors (failure to open or read the file) are outside the model;
on any line list the function is total. -/
def read_first_section (lines : List String) : String :=
  read_first_section_go false "" lines

/-- Concatenation of lines, each followed by a terminator, as
`read_first_section` buffers them. -/
def joinLines (ls : List String) : String :=
  ls.foldr (fun l acc => l ++ "\n" ++ acc) ""

/-- Model of `collect_tags` (main.rs:132-139): keep each path whose
`load_tags` succeeded, flatten the tag lists, and collect into a set. The
per-path loader is a parameter (it does file I/O in Rust). -/
def collect_tags {α : Type} (load : α → Except YamlError (List String))
    (paths : List α) : Finset String :=
  ((paths.filterMap (fun p => (load p).toOption)).flatten).toFinset

/-- Sequential reference aggregator, written from the spec: a strictly
left-to-right fold that unions the tag list of each successful extraction
into the accumulated set. -/
def collect_tags_seq {α : Type} (load : α → Except YamlError (List String))
    (paths : List α) : Finset String :=
  paths.foldl
    (fun acc p =>
      match load p with
      | Except.ok tags => acc ∪ tags.toFinset
      | Except.error _ => acc)
    ∅

/-- A filesystem entry as the walk observes it: its file name and whether the
path is a regular file (`path.is_file()`). -/
structure FsPath where
  fileName : String
  isFile : Bool
deriving DecidableEq

/-- Split a character list at its last `'.'` into the parts before and after
it, or `none` when no dot occurs (models Rust `rsplitn(2, '.')` as used by
`split_file_at_dot`). -/
def splitAtLastDot : List Char → Option (List Char × List Char)
  | [] => none
  | c :: rest =>
      match splitAtLastDot rest with
      | some (b, a) => some (c :: b, a)
      | none => if c = '.' then some ([], rest) else none

/-- Model of Rust `Path::extension` on a file name: the portion after the last
`'.'`, none when there is no dot, when the name is `".."`, or when the part
before the last dot is empty (hidden files like `".md"` have no extension). -/
def extension (name : String) : Option String :=
  if name = ".." then none
  else
    match splitAtLastDot name.data with
    | none => none
    | some (before, after) => if before = [] then none else some ⟨after⟩

/-- Model of `collect_paths` (main.rs:141-148): the walk yields a list of
entries, each either an error or an `FsPath`; errors are dropped
(`entry.ok()`), and the survivors are filtered to regular files whose
extension is exactly `"md"`. -/
def collect_paths (entries : List (Except String FsPath)) : List FsPath :=
  (entries.filterMap Except.toOption).filter
    (fun p => p.isFile && (extension p.fileName == some "md"))

/-- Model of vault-path resolution in `main` (main.rs:157-165): the `--path`
argument wins; otherwise the `OBSIDIAN_VAULT_PATH` environment variable;
otherwise the run fails with a configuration error (`anyhow!`), propagated by
`?` so the program never proceeds to scan. -/
def resolve_vault_path (argPath : Option String) (envVar : Option String) :
    Except String String :=
  match argPath with
  | some p => Except.ok p
  | none =>
      match envVar with
      | some v => Except.ok v
      | none => Except.error "OBSIDIAN_VAULT_PATH not set"

/-- Model of the `--rg` branch of `main` (main.rs:170-178): each successfully
read line of the subprocess output is inserted, raw, into the tag set. -/
def insert_inline (base : Finset String) (lines : List String) : Finset String :=
  lines.foldl (fun acc l => insert l acc) base

/-- Model of the final print loop of `main` (main.rs:180-182): one line per
set element, holding `remove_hash` of the element; the result is the multiset
of printed lines (iteration order of the `HashSet` is unspecified). -/
def print_output (tags : Finset String) : Multiset String :=
  tags.val.map remove_hash

/-! ### Lemmas about the front-matter extractor -/

/-- While `in_section` is false, non-delimiter lines are skipped and the
buffer is untouched. -/
theorem rfs_go_skip (pre : List String) (rest : List String) (cur : String)
    (h : ∀ l ∈ pre, strTrim l ≠ "---") :
    read_first_section_go false cur (pre ++ rest) =
      read_first_section_go false cur rest := by
  induction pre with
  | nil => rfl
  | cons l ls ih =>
    have hl : strTrim l ≠ "---" := h l (List.mem_cons_self _ _)
    simp only [List.cons_append, read_first_section_go, if_neg hl,
      Bool.false_eq_true, if_false]
    exact ih (fun x hx => h x (List.mem_cons_of_mem _ hx))

/-- While `in_section` is true, a run of non-delimiter lines is appended to
the buffer, each followed by a terminator. -/
theorem rfs_go_in (body : List String) :
    ∀ (cur : String) (rest : List String),
      (∀ l ∈ body, strTrim l ≠ "---") →
      read_first_section_go true cur (body ++ rest) =
        read_first_section_go true (cur ++ joinLines body) rest := by
  induction body with
  | nil => intro cur rest _; simp [joinLines]
  | cons l ls ih =>
    intro cur rest h
    have hl : strTrim l ≠ "---" := h l (List.mem_cons_self _ _)
    simp only [List.cons_append, read_first_section_go, if_neg hl, if_pos,
      List.append_eq]
    rw [ih (cur ++ l ++ "\n") rest (fun x hx => h x (List.mem_cons_of_mem _ hx))]
    have : cur ++ l ++ "\n" ++ joinLines ls = cur ++ joinLines (l :: ls) := by
      simp [joinLines, String.append_assoc]
    rw [this]

/-- C5: the front-matter extractor is a total state machine over delimiter
lines (a trimmed `---` toggles the within-block state): if no delimiter line
ever occurs the result is the empty string; if end-of-input is reached while
still inside the block, the buffer accumulated so far (opening delimiter plus
body lines) is returned; and when a closing delimiter occurs the buffer up to
and including it is returned. Only I/O failure (outside the pure model, which
is total on every line list) yields an error. -/
theorem C5_state_machine (lines : List String) :
    ((∀ l ∈ lines, strTrim l ≠ "---") → read_first_section lines = "") ∧
    (∀ pre d body, lines = pre ++ d :: body →
      (∀ l ∈ pre, strTrim l ≠ "---") → strTrim d = "---" →
      (∀ l ∈ body, strTrim l ≠ "---") →
      read_first_section lines = "---\n" ++ joinLines body) ∧
    (∀ pre d body d₂ tl, lines = pre ++ d :: (body ++ d₂ :: tl) →
      (∀ l ∈ pre, strTrim l ≠ "---") → strTrim d = "---" →
      (∀ l ∈ body, strTrim l ≠ "---") → strTrim d₂ = "---" →
      read_first_section lines = "---\n" ++ joinLines body ++ "---\n") := by
  refine ⟨?_, ?_, ?_⟩
  · intro h
    have hs := rfs_go_skip lines [] "" h
    simpa [read_first_section, read_first_section_go] using hs
  · intro pre d body hline hpre hd hbody
    subst hline
    unfold read_first_section
    rw [rfs_go_skip pre _ "" hpre]
    simp only [read_first_section_go, if_pos hd, Bool.false_eq_true, if_false]
    have hin := rfs_go_in body ("" ++ "---\n") [] hbody
    rw [List.append_nil] at hin
    rw [hin]
    simp [read_first_section_go]
  · intro pre d body d₂ tl hline hpre hd hbody hd₂
    subst hline
    unfold read_first_section
    rw [rfs_go_skip pre _ "" hpre]
    simp only [read_first_section_go, if_pos hd, Bool.false_eq_true, if_false]
    rw [rfs_go_in body ("" ++ "---\n") (d₂ :: tl) hbody]
    simp only [read_first_section_go, if_pos hd₂, String.empty_append]
    simp [String.append_assoc]

/-- Witness for C5 at concrete inputs: a delimiter-free file yields `""`, an
unterminated block yields the buffered lines, a terminated block yields the
buffer up to the closing delimiter. -/
theorem C5_witness :
    read_first_section ["# title", "text"] = "" ∧
    read_first_section ["---", "tags: [a]"] = "---\ntags: [a]\n" ∧
    read_first_section ["---", "tags: [a]", "---", "body"] = "---\ntags: [a]\n---\n" := by
  refine ⟨?_, ?_, ?_⟩
  · exact (C5_state_machine ["# title", "text"]).1 (by decide)
  · have h := (C5_state_machine ["---", "tags: [a]"]).2.1 [] "---" ["tags: [a]"]
      rfl (by decide) (by decide) (by decide)
    rw [h]; rfl
  · have h := (C5_state_machine ["---", "tags: [a]", "---", "body"]).2.2 [] "---"
      ["tags: [a]"] "---" ["body"] rfl (by decide) (by decide) (by decide) (by decide)
    rw [h]; rfl

/-- C9: the extractor enters the block at the first trimmed `---` line
anywhere in the file, not only at the top — every prefix of non-delimiter
lines is discarded and does not affect the result. -/
theorem C9_prefix_discarded (pre rest : List String)
    (h : ∀ l ∈ pre, strTrim l ≠ "---") :
    read_first_section (pre ++ rest) = read_first_section rest :=
  rfs_go_skip pre rest "" h

/-- Witness for C9: a block preceded by body text is still extracted. -/
theorem C9_witness :
    read_first_section (["intro text", ""] ++ ["---", "tags: [x]", "---"]) =
      read_first_section ["---", "tags: [x]", "---"] ∧
    read_first_section (["intro text", ""] ++ ["---", "tags: [x]", "---"]) =
      "---\ntags: [x]\n---\n" := by
  have h := C9_prefix_discarded ["intro text", ""] ["---", "tags: [x]", "---"] (by decide)
  exact ⟨h, by rw [h]; rfl⟩

/-! ### Lemmas about tag parsing -/

/-- The per-element step of `load_tags` — keep string elements, trim, drop
empties — equals the spec's staged description: filter to strings, map trim,
filter out empties (order preserved). -/
theorem filterMap_make_tag (l : List Yaml) :
    l.filterMap (fun tag => tag.as_str.bind make_tag) =
      ((l.filterMap Yaml.as_str).map strTrim).filter (fun s => !(s == "")) := by
  induction l with
  | nil => rfl
  | cons t ts ih =>
    cases t with
    | string s =>
      simp only [List.filterMap_cons, Yaml.as_str, Option.some_bind, List.map_cons,
        List.filter_cons, make_tag]
      by_cases h : strTrim s = ""
      · simp only [if_pos h, h]
        simp only [show (!("" : String) == "") = false from rfl, Bool.false_eq_true,
          if_false]
        exact ih
      · simp only [if_neg h]
        have hb : (strTrim s == "") = false := beq_eq_false_iff_ne.mpr h
        simp only [List.filterMap_cons_some, hb, Bool.not_false, if_true]
        exact List.cons_eq_cons.mpr ⟨rfl, ih⟩
    | integer n => simpa [List.filterMap_cons, Yaml.as_str] using ih
    | boolean b => simpa [List.filterMap_cons, Yaml.as_str] using ih
    | array xs => simpa [List.filterMap_cons, Yaml.as_str] using ih
    | hash kvs => simpa [List.filterMap_cons, Yaml.as_str] using ih
    | null => simpa [List.filterMap_cons, Yaml.as_str] using ih
    | badValue => simpa [List.filterMap_cons, Yaml.as_str] using ih

/-- C2 counterexample: a document that decodes successfully (a hash) but has
no `tags` field makes `load_tags` return the `InvalidTagsType` error, not an
empty list — `yaml["tags"]` is `BadValue` and `as_vec` of it is `None`. -/
theorem C2_counterexample :
    load_tags_fromYaml (some (Yaml.hash [(Yaml.string "title", Yaml.string "note")])) =
      Except.error YamlError.invalidTagsType ∧
    load_tags_fromYaml (some (Yaml.hash [(Yaml.string "title", Yaml.string "note")])) ≠
      Except.ok [] := by
  refine ⟨rfl, ?_⟩
  intro h
  have h2 : (Except.error YamlError.invalidTagsType : Except YamlError (List String)) =
      Except.ok [] := h
  exact Except.noConfusion h2

/-- C2 amended: when no document is present (empty front-matter text) the
parse returns an empty list, but when a document is present and its `tags`
key is absent, `load_tags` returns the `InvalidTagsType` structural error
(which the aggregator then swallows), not an empty list. -/
theorem C2_missing_tags_field (kvs : List (Yaml × Yaml))
    (h : Yaml.lookupKey kvs "tags" = none) :
    load_tags_fromYaml (some (Yaml.hash kvs)) = Except.error YamlError.invalidTagsType ∧
    load_tags_fromYaml none = Except.ok [] := by
  refine ⟨?_, rfl⟩
  simp [load_tags_fromYaml, Yaml.index, h, Yaml.as_vec]

/-- Witness for the amended C2 at a concrete document with no `tags` key. -/
theorem C2_witness :
    Yaml.lookupKey [(Yaml.string "title", Yaml.string "note")] "tags" = none ∧
    load_tags_fromYaml (some (Yaml.hash [(Yaml.string "title", Yaml.string "note")])) =
      Except.error YamlError.invalidTagsType :=
  ⟨rfl, (C2_missing_tags_field [(Yaml.string "title", Yaml.string "note")] rfl).1⟩

/-- C3: when `tags` exists and is a list, the result keeps exactly the
string-typed elements (others silently filtered out), trims each, drops those
whose trimmed form is empty, and preserves source order; on
`[a, 5, " b ", "", c]` the result is exactly `[a, b, c]`. -/
theorem C3_tags_list (kvs : List (Yaml × Yaml)) (l : List Yaml)
    (h : Yaml.lookupKey kvs "tags" = some (Yaml.array l)) :
    load_tags_fromYaml (some (Yaml.hash kvs)) =
      Except.ok (((l.filterMap Yaml.as_str).map strTrim).filter (fun s => !(s == ""))) ∧
    load_tags_fromYaml (some (Yaml.hash [(Yaml.string "tags",
        Yaml.array [Yaml.string "a", Yaml.integer 5, Yaml.string " b ",
          Yaml.string "", Yaml.string "c"])])) = Except.ok ["a", "b", "c"] := by
  refine ⟨?_, rfl⟩
  simp [load_tags_fromYaml, Yaml.index, h, Yaml.as_vec, filterMap_make_tag]

/-- Witness for C3 at a concrete document whose `tags` list holds one padded
string. -/
theorem C3_witness :
    load_tags_fromYaml (some (Yaml.hash [(Yaml.string "tags",
        Yaml.array [Yaml.string " x "])])) = Except.ok ["x"] := by
  have h := (C3_tags_list [(Yaml.string "tags", Yaml.array [Yaml.string " x "])]
      [Yaml.string " x "] rfl).1
  rw [h]; rfl

/-- C4: when `tags` exists but is not a list, parsing fails with the
structural error (`InvalidTagsType`, "expected a list"), and the aggregator
maps any per-path failure to zero tags without aborting the batch: removing
the failing path from the path list leaves the aggregate unchanged. -/
theorem C4_tags_not_list {α : Type} (kvs : List (Yaml × Yaml)) (v : Yaml)
    (load : α → Except YamlError (List String)) (xs ys : List α) (p : α)
    (e : YamlError) (h1 : Yaml.lookupKey kvs "tags" = some v)
    (h2 : v.as_vec = none) (h3 : load p = Except.error e) :
    load_tags_fromYaml (some (Yaml.hash kvs)) = Except.error YamlError.invalidTagsType ∧
    collect_tags load (xs ++ p :: ys) = collect_tags load (xs ++ ys) := by
  constructor
  · simp [load_tags_fromYaml, Yaml.index, h1, h2]
  · have hnone : (load p).toOption = none := by rw [h3]; rfl
    simp [collect_tags, List.filterMap_append, List.filterMap_cons, hnone]

/-- Witness for C4: a scalar `tags` value errors, and a failing path drops
out of the aggregate. -/
theorem C4_witness :
    load_tags_fromYaml (some (Yaml.hash [(Yaml.string "tags", Yaml.string "foo")])) =
      Except.error YamlError.invalidTagsType ∧
    collect_tags
        (fun n : Nat => if n = 0 then Except.ok ["a"] else Except.error YamlError.invalidTagsType)
        ([0] ++ 1 :: []) =
      collect_tags
        (fun n : Nat => if n = 0 then Except.ok ["a"] else Except.error YamlError.invalidTagsType)
        ([0] ++ []) := by
  have h := C4_tags_not_list [(Yaml.string "tags", Yaml.string "foo")] (Yaml.string "foo")
    (fun n : Nat => if n = 0 then Except.ok ["a"] else Except.error YamlError.invalidTagsType)
    [0] [] 1 YamlError.invalidTagsType rfl rfl rfl
  exact ⟨h.1, h.2⟩

/-- C10: a front-matter tag consisting only of `"#"` is non-empty before
hash-stripping, so it survives `make_tag`, enters the tag set, and is printed
as an empty line — leading `#` characters are stripped only at output time,
after the emptiness filter. -/
theorem C10_hash_only_tag :
    make_tag "#" = some "#" ∧
    load_tags_fromYaml (some (Yaml.hash [(Yaml.string "tags",
        Yaml.array [Yaml.string "#"])])) = Except.ok ["#"] ∧
    remove_hash "#" = "" ∧
    print_output {"#"} = {""} :=
  ⟨rfl, rfl, rfl, rfl⟩

/-! ### Lemmas about aggregation, path collection, and the entry point -/

/-- Unfolding the sequential fold: folding from any accumulator yields the
accumulator united with the aggregate of the remaining paths. -/
theorem collect_tags_foldl {α : Type} (load : α → Except YamlError (List String))
    (paths : List α) :
    ∀ acc : Finset String,
      paths.foldl
        (fun acc p =>
          match load p with
          | Except.ok tags => acc ∪ tags.toFinset
          | Except.error _ => acc)
        acc = acc ∪ collect_tags load paths := by
  induction paths with
  | nil => intro acc; simp [collect_tags]
  | cons p rest ih =>
    intro acc
    simp only [List.foldl_cons]
    cases hl : load p with
    | error e =>
      have hnone : (load p).toOption = none := by rw [hl]; rfl
      show List.foldl _ acc rest = acc ∪ collect_tags load (p :: rest)
      rw [ih acc]
      simp [collect_tags, List.filterMap_cons, hnone]
    | ok tags =>
      have hsome : (load p).toOption = some tags := by rw [hl]; rfl
      show List.foldl _ (acc ∪ tags.toFinset) rest = acc ∪ collect_tags load (p :: rest)
      rw [ih (acc ∪ tags.toFinset)]
      simp [collect_tags, List.filterMap_cons, hsome, List.toFinset_append,
        Finset.union_assoc]

/-- C6: the aggregate tag set is the same as the one a strictly sequential
left-to-right implementation produces (fold unioning each successful path's
tags), and it is invariant under any permutation of the path list — so it is
independent of execution order and concurrency degree. -/
theorem C6_order_independent {α : Type} (load : α → Except YamlError (List String))
    (paths paths₂ : List α) (h : paths.Perm paths₂) :
    collect_tags load paths = collect_tags_seq load paths ∧
    collect_tags load paths = collect_tags load paths₂ := by
  constructor
  · rw [collect_tags_seq, collect_tags_foldl load paths ∅, Finset.empty_union]
  · exact List.toFinset_eq_of_perm _ _ ((h.filterMap _).flatten)

/-- Witness for C6 at a concrete loader and a transposed path list. -/
theorem C6_witness :
    (([0, 1] : List Nat).Perm [1, 0]) ∧
    collect_tags
        (fun n : Nat => if n = 0 then Except.ok ["a", "b"] else Except.ok ["b", "c"])
        [0, 1] =
      collect_tags_seq
        (fun n : Nat => if n = 0 then Except.ok ["a", "b"] else Except.ok ["b", "c"])
        [0, 1] ∧
    collect_tags
        (fun n : Nat => if n = 0 then Except.ok ["a", "b"] else Except.ok ["b", "c"])
        [0, 1] =
      collect_tags
        (fun n : Nat => if n = 0 then Except.ok ["a", "b"] else Except.ok ["b", "c"])
        [1, 0] := by
  have hp : ([0, 1] : List Nat).Perm [1, 0] := by decide
  have h := C6_order_independent
    (fun n : Nat => if n = 0 then Except.ok ["a", "b"] else Except.ok ["b", "c"])
    [0, 1] [1, 0] hp
  exact ⟨hp, h.1, h.2⟩

/-- `Except.toOption` hits `some` exactly on `ok` values. -/
theorem exceptToOption_eq_some {ε α : Type} (e : Except ε α) (a : α) :
    e.toOption = some a ↔ e = Except.ok a := by
  cases e <;> simp [Except.toOption]

/-- C7: the file collector yields exactly the traversed entries that are
regular files with extension exactly `"md"` (case-sensitive, so a `.MD` file
is excluded); erroring entries are silently skipped, and the collector is a
total function — the traversal as a whole never fails. -/
theorem C7_collect_paths (entries : List (Except String FsPath)) (p : FsPath) :
    (p ∈ collect_paths entries ↔
      Except.ok p ∈ entries ∧ p.isFile = true ∧ extension p.fileName = some "md") ∧
    extension "note.md" = some "md" ∧
    extension "note.MD" ≠ some "md" := by
  refine ⟨?_, rfl, by decide⟩
  simp only [collect_paths, List.mem_filter, List.mem_filterMap,
    exceptToOption_eq_some, exists_eq_right, Bool.and_eq_true, beq_iff_eq,
    and_assoc]

/-- Witness for C7: a readable `.md` file is collected; an unreadable entry
and a `.MD` file are not. -/
theorem C7_witness :
    FsPath.mk "note.md" true ∈
      collect_paths [Except.error "denied", Except.ok ⟨"note.md", true⟩,
        Except.ok ⟨"note.MD", true⟩] ∧
    FsPath.mk "note.MD" true ∉
      collect_paths [Except.error "denied", Except.ok ⟨"note.md", true⟩,
        Except.ok ⟨"note.MD", true⟩] := by
  constructor
  · exact (C7_collect_paths _ ⟨"note.md", true⟩).1.mpr
      ⟨by simp, rfl, rfl⟩
  · intro hmem
    have h := ((C7_collect_paths [Except.error "denied", Except.ok ⟨"note.md", true⟩,
        Except.ok ⟨"note.MD", true⟩] ⟨"note.MD", true⟩).1.mp hmem).2.2
    exact absurd h (by decide)

/-- C8: root resolution uses the explicit path argument when supplied, else
the `OBSIDIAN_VAULT_PATH` environment variable, else it fails with a
configuration error; an error arises only when both are absent, so the
program (which propagates the error with `?` and exits non-zero) never
proceeds to scan without a resolved root. -/
theorem C8_root_resolution (argPath envVar : Option String) :
    (∀ p, argPath = some p → resolve_vault_path argPath envVar = Except.ok p) ∧
    (argPath = none → ∀ v, envVar = some v →
      resolve_vault_path argPath envVar = Except.ok v) ∧
    (argPath = none → envVar = none →
      resolve_vault_path argPath envVar = Except.error "OBSIDIAN_VAULT_PATH not set") ∧
    (∀ msg, resolve_vault_path argPath envVar = Except.error msg →
      argPath = none ∧ envVar = none) := by
  cases argPath <;> cases envVar <;> simp [resolve_vault_path]

/-- Witness for C8 at all three concrete configurations. -/
theorem C8_witness :
    resolve_vault_path (some "/vault") (some "/env") = Except.ok "/vault" ∧
    resolve_vault_path none (some "/env") = Except.ok "/env" ∧
    resolve_vault_path none none = Except.error "OBSIDIAN_VAULT_PATH not set" :=
  ⟨(C8_root_resolution (some "/vault") (some "/env")).1 "/vault" rfl,
   (C8_root_resolution none (some "/env")).2.1 rfl "/env" rfl,
   (C8_root_resolution none none).2.2.1 rfl rfl⟩

/-- `remove_hash` never leaves a leading `'#'`: the head of the remaining
character list fails the dropped predicate. -/
theorem remove_hash_no_hash (t : String) : (remove_hash t).data.head? ≠ some '#' := by
  intro h
  have hm := List.head?_dropWhile_not (fun c => c == '#') t.data
  rw [show (remove_hash t).data = t.data.dropWhile (fun c => c == '#') from rfl] at h
  rw [h] at hm
  simp at hm

/-- C1 counterexample: deduplication happens on the raw strings in the
`HashSet` and `remove_hash` is applied per element only at print time, so
when front-matter contributes `project` and the inline scanner contributes
`#project`, the set holds both (they are distinct strings) and the line
`project` is printed twice, not once. -/
theorem C1_counterexample :
    ("project" : String) ≠ "#project" ∧
    Multiset.count "project"
      (print_output (insert_inline
        (collect_tags (fun _ : Unit => Except.ok ["project"]) [()])
        ["#project"])) = 2 := by
  constructor
  · decide
  · rfl

/-- C1 amended: the printed output has exactly one line per element of the
raw tag set, each element of the set yields the line `remove_hash` of it, and
no printed line starts with `'#'`; but because deduplication precedes
hash-stripping, raw tags differing only in leading `'#'` characters produce
duplicate printed lines. -/
theorem C1_print_per_raw_tag (tags : Finset String) :
    Multiset.card (print_output tags) = tags.card ∧
    (∀ t ∈ tags, remove_hash t ∈ print_output tags) ∧
    (∀ s ∈ print_output tags, s.data.head? ≠ some '#') := by
  refine ⟨Multiset.card_map _ _, ?_, ?_⟩
  · intro t ht
    exact Multiset.mem_map_of_mem _ (Finset.mem_def.mp ht)
  · intro s hs
    rcases Multiset.mem_map.mp hs with ⟨t, _, rfl⟩
    exact remove_hash_no_hash t

/-- Witness for the amended C1 at a concrete two-element tag set. -/
theorem C1_witness :
    Multiset.card (print_output ({"#a", "b"} : Finset String)) =
      ({"#a", "b"} : Finset String).card ∧
    (∀ s ∈ print_output ({"#a", "b"} : Finset String), s.data.head? ≠ some '#') :=
  ⟨(C1_print_per_raw_tag {"#a", "b"}).1, (C1_print_per_raw_tag {"#a", "b"}).2.2⟩
